import Mathlib

/-!
# Agentboard — shallow embedding and verification

Shallow embedding of the Agentboard task-tracking service:
* the data-access layer `AgentboardDB` (src/db/database.ts) over an explicit
  relational state, with the cascade rules of schema.sql folded into the
  delete operations (SQLite executes them via `ON DELETE` clauses);
* the business layer `BoardService` (services/board.service.ts);
* the `PubSub` event bus (src/graphql/pubsub.ts).

Modelling conventions:
* `uuidv4()` is modelled as a deterministic fresh-id generator threaded
  through the state (`nextId`); uuid collisions are outside the model, so
  the UNIQUE constraints on `agents.id` / `agents.api_key` never fire.
* `datetime('now')` is an explicit `now : String` argument to every
  mutating operation.
* JavaScript values that may fail a `typeof x === 'string'` check are
  modelled by `JVal`; `undefined` optionality by `Option`.
* A service method returns `DBState × List Event × Except ServiceError α`:
  the state and the published events are returned even on the error path,
  so "an invalid call leaves the store untouched" is a real statement.
-/

/-- Head-anchored list match (structural, so the kernel can evaluate it). -/
def leadMatch : List Char → List Char → Bool
  | [], _ => true
  | _ :: _, [] => false
  | a :: as, b :: bs => a = b && leadMatch as bs

/-- Substring occurrence on character lists (structural). -/
def hasSub (pat : List Char) : List Char → Bool
  | [] => leadMatch pat []
  | c :: rest => leadMatch pat (c :: rest) || hasSub pat rest

/-- JS `String.prototype.includes`, used on sqlite error messages. -/
def strIncludes (s pat : String) : Bool :=
  hasSub pat.data s.data

/-- JS `String.prototype.trim`: strip leading and trailing whitespace.
(Structural model of `String.trim`, which the kernel cannot reduce.) -/
def jsTrim (s : String) : String :=
  ⟨((s.data.dropWhile Char.isWhitespace).reverse.dropWhile
    Char.isWhitespace).reverse⟩

/-- A JavaScript value as far as the service's `typeof` checks observe it:
either a string or some non-string value. -/
inductive JVal where
  | str (s : String)
  | nonString
deriving DecidableEq, Repr

/-- Kanban column a ticket can live in (types.ts `Column`). -/
inductive Column where
  | backlog
  | ready
  | in_progress
  | in_review
  | done
deriving DecidableEq, Repr

/-- The wire representation of a column value. -/
def Column.toWire : Column → String
  | .backlog => "backlog"
  | .ready => "ready"
  | .in_progress => "in_progress"
  | .in_review => "in_review"
  | .done => "done"

/-- Ordered list of every valid column value (types.ts `VALID_COLUMNS`). -/
def VALID_COLUMNS : List String :=
  ["backlog", "ready", "in_progress", "in_review", "done"]

/-- types.ts `isValidColumn` restricted to strings (the `typeof` half of the
guard is handled at `JVal` level by the callers). -/
def isValidColumn (s : String) : Bool :=
  VALID_COLUMNS.contains s

/-- The TypeScript type-guard narrowing `string → Column`. -/
def asColumn (s : String) : Option Column :=
  if s = "backlog" then some .backlog
  else if s = "ready" then some .ready
  else if s = "in_progress" then some .in_progress
  else if s = "in_review" then some .in_review
  else if s = "done" then some .done
  else none

-- ---------------------------------------------------------------------------
-- Domain entities (types.ts)
-- ---------------------------------------------------------------------------

structure Agent where
  id : String
  name : String
  apiKey : String
  createdAt : String
deriving DecidableEq, Repr

structure Project where
  id : String
  name : String
  description : String
  createdAt : String
deriving DecidableEq, Repr

structure Ticket where
  id : String
  projectId : String
  title : String
  description : String
  column : Column
  position : Int
  agentId : Option String
  createdAt : String
  updatedAt : String
deriving DecidableEq, Repr

structure Comment where
  id : String
  ticketId : String
  agentId : String
  body : String
  createdAt : String
deriving DecidableEq, Repr

structure TicketRevision where
  id : String
  ticketId : String
  agentId : Option String
  field : String
  oldValue : String
  newValue : String
  timestamp : String
deriving DecidableEq, Repr

structure Activity where
  id : String
  agentId : Option String
  ticketId : String
  action : String
  details : String
  timestamp : String
deriving DecidableEq, Repr

structure AuditEntry where
  id : String
  agentId : Option String
  method : String
  path : String
  statusCode : Int
  requestBody : String
  timestamp : String
deriving DecidableEq, Repr

/-- The relational store: one list per table of schema.sql, plus the fresh-id
counter standing in for the uuid generator. -/
structure DBState where
  agents : List Agent
  projects : List Project
  tickets : List Ticket
  comments : List Comment
  revisions : List TicketRevision
  activities : List Activity
  audits : List AuditEntry
  nextId : Nat
deriving DecidableEq, Repr

/-- Deterministic stand-in for `uuidv4()`. -/
def freshId (n : Nat) : String :=
  "uuid-" ++ toString n

namespace AgentboardDB

/-- database.ts `getTicket`: SELECT by id AND project_id. -/
def getTicket (db : DBState) (projectId ticketId : String) : Option Ticket :=
  db.tickets.find? (fun t => t.id = ticketId && t.projectId = projectId)

/-- database.ts `getProject`. -/
def getProject (db : DBState) (id : String) : Option Project :=
  db.projects.find? (fun p => p.id = id)

/-- database.ts `getAgentById` (public projection irrelevant here). -/
def getAgentById (db : DBState) (id : String) : Option Agent :=
  db.agents.find? (fun a => a.id = id)

/-- `SELECT COALESCE(MAX(position), -1) FROM tickets WHERE project_id = ?
AND column_name = ?`. -/
def maxPos (db : DBState) (projectId : String) (col : Column) : Int :=
  (db.tickets.filter (fun t => t.projectId = projectId && t.column = col)).foldl
    (fun m t => max m t.position) (-1)

/-- database.ts `logRevision`: INSERT a revision row. -/
def logRevision (db : DBState) (ticketId : String) (agentId : Option String)
    (field oldValue newValue : String) (now : String) :
    DBState × TicketRevision :=
  let id := freshId db.nextId
  let rev : TicketRevision :=
    ⟨id, ticketId, agentId, field, oldValue, newValue, now⟩
  ({ db with revisions := db.revisions ++ [rev], nextId := db.nextId + 1 }, rev)

/-- database.ts `logActivity`: INSERT an activity row. -/
def logActivity (db : DBState) (agentId : Option String) (ticketId : String)
    (action details : String) (now : String) : DBState × Activity :=
  let id := freshId db.nextId
  let act : Activity := ⟨id, agentId, ticketId, action, details, now⟩
  ({ db with activities := db.activities ++ [act], nextId := db.nextId + 1 },
    act)

/-- database.ts `logAudit`: INSERT an audit row. -/
def logAudit (db : DBState) (agentId : Option String)
    (method path : String) (statusCode : Int) (requestBody : String)
    (now : String) : DBState × AuditEntry :=
  let id := freshId db.nextId
  let entry : AuditEntry :=
    ⟨id, agentId, method, path, statusCode, requestBody, now⟩
  ({ db with audits := db.audits ++ [entry], nextId := db.nextId + 1 }, entry)

/-- database.ts `createAgent`: INSERT into agents. The UNIQUE constraint on
`name` (schema.sql) makes the insert throw a sqlite error whose message
contains "UNIQUE" when the name is taken; id/api_key are fresh uuids, whose
UNIQUE constraints cannot fire in this model. -/
def createAgent (db : DBState) (name : String) (now : String) :
    Except String (DBState × Agent) :=
  let id := freshId db.nextId
  let apiKey := "ab-" ++ freshId (db.nextId + 1)
  if db.agents.any (fun a => a.name = name) then
    .error "UNIQUE constraint failed: agents.name"
  else
    let agent : Agent := ⟨id, name, apiKey, now⟩
    .ok ({ db with agents := db.agents ++ [agent], nextId := db.nextId + 2 },
      agent)

/-- database.ts `createTicket`: computes position = max position in the
target project+column plus one (−1 + 1 = 0 on an empty column), INSERTs,
re-SELECTs the row. -/
def createTicket (db : DBState) (projectId title : String)
    (description : String) (col : Column) (agentId : Option String)
    (now : String) : DBState × Ticket :=
  let id := freshId db.nextId
  let position := maxPos db projectId col + 1
  let t : Ticket :=
    ⟨id, projectId, title, description, col, position, agentId, now, now⟩
  ({ db with tickets := db.tickets ++ [t], nextId := db.nextId + 1 }, t)

/-- The field updates accepted by database.ts `updateTicket`. The `agentId`
member models the `'agentId' in updates` presence check: `none` means the
key is absent, `some v` that it is present with value `v ?? null`. -/
structure DBUpdates where
  title : Option String := none
  description : Option String := none
  column : Option Column := none
  agentId : Option (Option String) := none
deriving DecidableEq, Repr

/-- database.ts `updateTicket`:
reads the existing row; logs one revision per changed field in the fixed
order title, description, column, agentId; recomputes position append-to-end
when the column changed; rewrites the row in one UPDATE bumping
`updated_at`; re-SELECTs. Returns `none` (undefined) for a missing ticket. -/
def updateTicket (db : DBState) (projectId ticketId : String)
    (updates : DBUpdates) (actorId : Option (Option String)) (now : String) :
    Option (DBState × Ticket) :=
  match getTicket db projectId ticketId with
  | none => none
  | some existing =>
    let newTitle := updates.title.getD existing.title
    let newDescription := updates.description.getD existing.description
    let newColumn := updates.column.getD existing.column
    let newAgentId :=
      match updates.agentId with
      | some v => v
      | none => existing.agentId
    let actor : Option String := actorId.getD none
    let db1 :=
      if newTitle = existing.title then db
      else (logRevision db ticketId actor "title" existing.title newTitle
        now).1
    let db2 :=
      if newDescription = existing.description then db1
      else (logRevision db1 ticketId actor "description"
        existing.description newDescription now).1
    let db3 :=
      if newColumn = existing.column then db2
      else (logRevision db2 ticketId actor "column" existing.column.toWire
        newColumn.toWire now).1
    let db4 :=
      if newAgentId = existing.agentId then db3
      else (logRevision db3 ticketId actor "agentId"
        (existing.agentId.getD "") (newAgentId.getD "") now).1
    let newPosition :=
      if newColumn = existing.column then existing.position
      else maxPos db4 projectId newColumn + 1
    let db5 :=
      { db4 with
        tickets := db4.tickets.map (fun t =>
          if t.id = ticketId && t.projectId = projectId then
            { t with
              title := newTitle
              description := newDescription
              column := newColumn
              position := newPosition
              agentId := newAgentId
              updatedAt := now }
          else t) }
    (getTicket db5 projectId ticketId).map (fun t => (db5, t))

/-- database.ts `moveTicket`: updateTicket restricted to the column field. -/
def moveTicket (db : DBState) (projectId ticketId : String) (column : Column)
    (actorId : Option (Option String)) (now : String) :
    Option (DBState × Ticket) :=
  updateTicket db projectId ticketId { column := some column } actorId now

/-- database.ts `deleteAgent` together with the schema.sql `ON DELETE`
clauses: comments authored by the agent CASCADE away; the agent reference
on tickets, activity, audit and revisions is SET NULL. -/
def deleteAgent (db : DBState) (id : String) : DBState × Bool :=
  let existed := db.agents.any (fun a => a.id = id)
  ({ db with
      agents := db.agents.filter (fun a => ¬ a.id = id)
      comments := db.comments.filter (fun c => ¬ c.agentId = id)
      tickets := db.tickets.map (fun t =>
        if t.agentId = some id then { t with agentId := none } else t)
      revisions := db.revisions.map (fun r =>
        if r.agentId = some id then { r with agentId := none } else r)
      activities := db.activities.map (fun a =>
        if a.agentId = some id then { a with agentId := none } else a)
      audits := db.audits.map (fun a =>
        if a.agentId = some id then { a with agentId := none } else a) },
    existed)

/-- database.ts `deleteProject` together with the schema.sql cascades:
tickets of the project CASCADE away, and comments and revisions whose
ticket was cascaded follow (activity has no foreign key on ticket_id). -/
def deleteProject (db : DBState) (id : String) : DBState × Bool :=
  let existed := db.projects.any (fun p => p.id = id)
  let dead := fun tid =>
    db.tickets.any (fun t => t.id = tid && t.projectId = id)
  ({ db with
      projects := db.projects.filter (fun p => ¬ p.id = id)
      tickets := db.tickets.filter (fun t => ¬ t.projectId = id)
      comments := db.comments.filter (fun c => ¬ dead c.ticketId)
      revisions := db.revisions.filter (fun r => ¬ dead r.ticketId) },
    existed)

end AgentboardDB

-- ---------------------------------------------------------------------------
-- Business layer (services/board.service.ts)
-- ---------------------------------------------------------------------------

/-- The typed domain errors of services/errors.ts; `internal` is an error
rethrown from the storage layer. -/
inductive ServiceError where
  | notFound (msg : String)
  | validation (msg : String)
  | duplicate (msg : String)
  | internal (msg : String)
deriving DecidableEq, Repr

/-- Equality of service results is decidable (used by concrete checks). -/
instance {e a : Type} [DecidableEq e] [DecidableEq a] :
    DecidableEq (Except e a) := fun x y =>
  match x, y with
  | .error u, .error v => decidable_of_iff (u = v) (by simp)
  | .ok u, .ok v => decidable_of_iff (u = v) (by simp)
  | .error _, .ok _ => .isFalse (by simp)
  | .ok _, .error _ => .isFalse (by simp)

/-- An event published on the pubsub singleton, with its payload. -/
inductive Event where
  | ticketCreated (ticket : Ticket) (projectId : String)
  | ticketUpdated (ticket : Ticket) (projectId : String)
  | ticketMoved (ticket : Ticket) (projectId : String)
  | ticketDeleted (ticket : Ticket) (projectId : String)
  | auditAdded (entry : AuditEntry)
  | agentChanged (agent : Agent)
  | projectChanged (project : Project)
deriving DecidableEq, Repr

namespace BoardService

open AgentboardDB

/-- The `{title?, description?, column?}` updates object reaching
`BoardService.updateTicket` from the wire, before `typeof` checks. -/
structure UpdateInput where
  title : Option JVal := none
  description : Option JVal := none
  column : Option JVal := none
deriving DecidableEq, Repr

/-- A rendering of `JSON.stringify(cleanUpdates)` for the audit details
string (its exact text is irrelevant to the service's behaviour). -/
def renderCleanUpdates (u : DBUpdates) : String :=
  String.intercalate ","
    ((u.title.map (fun s => "title:" ++ s)).toList ++
      (u.description.map (fun s => "description:" ++ s)).toList ++
      (u.column.map (fun c => "column:" ++ c.toWire)).toList)

/-- board.service.ts private `audit`: logAudit with status 200 plus an
AUDIT_ADDED publish. -/
def audit (db : DBState) (agentId : Option String) (action resource : String)
    (details : Option String) (now : String) : DBState × Event :=
  let p := logAudit db agentId action resource 200 (details.getD "") now
  (p.1, .auditAdded p.2)

/-- The check `updates.title !== undefined && (typeof updates.title !==
'string' || updates.title.trim().length === 0)`. -/
def badTitleInput : Option JVal → Bool
  | none => false
  | some (.str s) => jsTrim s = ""
  | some .nonString => true

/-- The check `updates.description !== undefined && typeof
updates.description !== 'string'`. -/
def badDescriptionInput : Option JVal → Bool
  | none => false
  | some (.str _) => false
  | some .nonString => true

/-- The check `updates.column !== undefined &&
!isValidColumn(updates.column)`. -/
def badColumnInput : Option JVal → Bool
  | none => false
  | some (.str s) => ¬ isValidColumn s
  | some .nonString => true

/-- The `cleanUpdates` object: title trimmed when a string, description
when a string, column narrowed via the type guard. -/
def cleanUpdatesOf (updates : UpdateInput) : DBUpdates :=
  { title :=
      match updates.title with
      | some (.str s) => some (jsTrim s)
      | _ => none
    description :=
      match updates.description with
      | some (.str s) => some s
      | _ => none
    column :=
      match updates.column with
      | some (.str s) => asColumn s
      | _ => none
    agentId := none }

/-- board.service.ts `updateTicket`: requireTicket, then the three field
validations (all before any write), then the `cleanUpdates` projection,
then the db update, activity log, TICKET_UPDATED publish and audit. -/
def updateTicket (db : DBState) (projectId ticketId : String)
    (updates : UpdateInput) (actorId : Option (Option String)) (now : String) :
    DBState × List Event × Except ServiceError Ticket :=
  match AgentboardDB.getTicket db projectId ticketId with
  | none => (db, [], .error (.notFound "Ticket not found"))
  | some resolved =>
    if badTitleInput updates.title then
      (db, [], .error (.validation "Invalid \"title\" field"))
    else if badDescriptionInput updates.description then
      (db, [], .error (.validation "Invalid \"description\" field"))
    else if badColumnInput updates.column then
      (db, [], .error (.validation "Invalid column value"))
    else
      let cleanUpdates := cleanUpdatesOf updates
      match AgentboardDB.updateTicket db projectId resolved.id cleanUpdates
          (some (actorId.getD none)) now with
      | none => (db, [], .error (.notFound "Ticket not found"))
      | some (db1, ticket) =>
        let db2 := (logActivity db1 (actorId.getD none) ticket.id
          "ticket_updated" "Updated ticket" now).1
        let p := audit db2 (actorId.getD none) "UPDATE"
          ("ticket " ++ ticket.title) (some (renderCleanUpdates cleanUpdates))
          now
        (p.1, [.ticketUpdated ticket ticket.projectId, p.2], .ok ticket)

/-- board.service.ts `moveTicket`: requireTicket, column validity, db move,
activity log, TICKET_MOVED publish and audit. -/
def moveTicket (db : DBState) (projectId ticketId : String) (column : JVal)
    (actorId : Option (Option String)) (now : String) :
    DBState × List Event × Except ServiceError Ticket :=
  match AgentboardDB.getTicket db projectId ticketId with
  | none => (db, [], .error (.notFound "Ticket not found"))
  | some resolved =>
    match column with
    | .nonString =>
      (db, [], .error (.validation "Invalid or missing column value"))
    | .str s =>
      match asColumn s with
      | none =>
        (db, [], .error (.validation ("Invalid or missing column value: " ++ s)))
      | some col =>
        match AgentboardDB.moveTicket db projectId resolved.id col
            (some (actorId.getD none)) now with
        | none => (db, [], .error (.notFound "Ticket not found"))
        | some (db1, ticket) =>
          let db2 := (logActivity db1 (actorId.getD none) ticket.id
            "ticket_moved" ("Moved to " ++ s) now).1
          let p := audit db2 (actorId.getD none) "MOVE"
            ("ticket " ++ ticket.title) (some ("to " ++ s)) now
          (p.1, [.ticketMoved ticket ticket.projectId, p.2], .ok ticket)

/-- board.service.ts `closeTicket`: human-only shortcut, moves to `done`
with a null actor, logs activity and publishes TICKET_MOVED (no audit). -/
def closeTicket (db : DBState) (projectId ticketId : String) (now : String) :
    DBState × List Event × Except ServiceError Ticket :=
  match AgentboardDB.getTicket db projectId ticketId with
  | none => (db, [], .error (.notFound "Ticket not found"))
  | some resolved =>
    match AgentboardDB.moveTicket db projectId resolved.id .done (some none)
        now with
    | none => (db, [], .error (.notFound "Ticket not found"))
    | some (db1, ticket) =>
      let db2 := (logActivity db1 none ticket.id "ticket_moved"
        "Human closed to done" now).1
      (db2, [.ticketMoved ticket ticket.projectId], .ok ticket)

/-- board.service.ts `createTicket`: requireProject, title validation,
column defaulting to backlog plus validity, db insert, activity log,
TICKET_CREATED publish and audit. -/
def createTicket (db : DBState) (projectId : String) (title : JVal)
    (description : Option String) (column : Option JVal)
    (agentId : Option (Option String)) (now : String) :
    DBState × List Event × Except ServiceError Ticket :=
  match getProject db projectId with
  | none => (db, [], .error (.notFound "Project not found"))
  | some _ =>
    match title with
    | .nonString =>
      (db, [], .error (.validation "Missing or invalid \"title\" field"))
    | .str ts =>
      if jsTrim ts = "" then
        (db, [], .error (.validation "Missing or invalid \"title\" field"))
      else
        match column.getD (.str "backlog") with
        | .nonString => (db, [], .error (.validation "Invalid column value"))
        | .str cs =>
          match asColumn cs with
          | none => (db, [], .error (.validation ("Invalid column value: " ++ cs)))
          | some col =>
            let p := AgentboardDB.createTicket db projectId (jsTrim ts)
              (description.getD "") col (agentId.getD none) now
            let db2 := (logActivity p.1 (agentId.getD none) p.2.id
              "ticket_created" ("Created ticket " ++ p.2.title) now).1
            let q := audit db2 (agentId.getD none) "CREATE"
              ("ticket " ++ p.2.title) (some ("in project " ++ projectId)) now
            (q.1, [.ticketCreated p.2 p.2.projectId, q.2], .ok p.2)

/-- board.service.ts `createAgent`: name validation, db insert mapped to
`Duplicate` when the sqlite message contains "UNIQUE", AGENT_CHANGED
publish and audit. -/
def createAgent (db : DBState) (name : JVal)
    (actorId : Option (Option String)) (now : String) :
    DBState × List Event × Except ServiceError Agent :=
  match name with
  | .nonString =>
    (db, [], .error (.validation "Missing or invalid \"name\" field"))
  | .str n =>
    if jsTrim n = "" then
      (db, [], .error (.validation "Missing or invalid \"name\" field"))
    else
      match AgentboardDB.createAgent db (jsTrim n) now with
      | .error msg =>
        if strIncludes msg "UNIQUE" then
          (db, [],
            .error (.duplicate ("Agent name \"" ++ n ++ "\" is already taken")))
        else (db, [], .error (.internal msg))
      | .ok (db1, agent) =>
        let p := audit db1 (actorId.getD none) "CREATE"
          ("agent " ++ agent.name) none now
        (p.1, [.agentChanged agent, p.2], .ok agent)

/-- board.service.ts `deleteProject`: requireProject, cascading db delete,
PROJECT_CHANGED publish and audit. -/
def deleteProject (db : DBState) (id : String)
    (actorId : Option (Option String)) (now : String) :
    DBState × List Event × Except ServiceError Unit :=
  match getProject db id with
  | none => (db, [], .error (.notFound "Project not found"))
  | some project =>
    let db1 := (AgentboardDB.deleteProject db id).1
    let p := audit db1 (actorId.getD none) "DELETE"
      ("project " ++ project.name) none now
    (p.1, [.projectChanged project, p.2], .ok ())

/-- board.service.ts `deleteAgent`: lookup, nullifying db delete,
AGENT_CHANGED publish. -/
def deleteAgent (db : DBState) (id : String) :
    DBState × List Event × Except ServiceError Unit :=
  match getAgentById db id with
  | none => (db, [], .error (.notFound "Agent not found"))
  | some agent =>
    let db1 := (AgentboardDB.deleteAgent db id).1
    (db1, [.agentChanged agent], .ok ())

end BoardService

-- ---------------------------------------------------------------------------
-- Event bus (src/graphql/pubsub.ts)
-- ---------------------------------------------------------------------------

namespace PubSub

/-- The per-subscription state captured by the closure of `subscribe`:
the `done` flag, whether the handler is still attached to the emitter,
the push queue of undelivered payloads, the number of pending `next()`
resolvers (the pull queue), and the payloads actually delivered to the
consumer so far. -/
structure Subscription (α : Type) where
  subId : Nat
  event : String
  done : Bool
  registered : Bool
  pushQueue : List α
  pendingPulls : Nat
  received : List α
deriving DecidableEq, Repr

/-- The emitter plus all live subscription closures. -/
structure PubSubState (α : Type) where
  subs : List (Subscription α)
  nextSubId : Nat
deriving DecidableEq, Repr

/-- pubsub.ts `subscribe`: registers a fresh handler with empty queues. -/
def subscribe {α : Type} (ps : PubSubState α) (ev : String) :
    PubSubState α × Nat :=
  ({ subs := ps.subs ++ [⟨ps.nextSubId, ev, false, true, [], 0, []⟩]
     nextSubId := ps.nextSubId + 1 }, ps.nextSubId)

/-- The `handler` closure of one subscription: on a matching emit, a waiting
`next()` resolver is fed the payload, otherwise the payload is queued. -/
def handleEvent {α : Type} (ev : String) (payload : α)
    (s : Subscription α) : Subscription α :=
  if s.registered && s.event = ev then
    if s.pendingPulls > 0 then
      { s with pendingPulls := s.pendingPulls - 1
               received := s.received ++ [payload] }
    else { s with pushQueue := s.pushQueue ++ [payload] }
  else s

/-- pubsub.ts `publish`: `emitter.emit` runs every registered handler for
the channel. -/
def publish {α : Type} (ps : PubSubState α) (ev : String) (payload : α) :
    PubSubState α :=
  { ps with subs := ps.subs.map (handleEvent ev payload) }

/-- The body of the iterator's `return()`: set `done`, detach the handler
(`emitter.off`), resolve all pending pulls with a done result, clear both
queues. -/
def cancelSub {α : Type} (s : Subscription α) : Subscription α :=
  { s with done := true, registered := false, pendingPulls := 0
           pushQueue := [] }

/-- `return()` on the iterator of subscription `i`. -/
def returnIter {α : Type} (ps : PubSubState α) (i : Nat) : PubSubState α :=
  { ps with subs := ps.subs.map (fun s =>
      if s.subId = i then cancelSub s else s) }

/-- The iterator's `next()`: done iterators yield a done result; otherwise
a queued payload is consumed, or a pull resolver is enqueued. -/
def nextIter {α : Type} (ps : PubSubState α) (i : Nat) : PubSubState α :=
  { ps with subs := ps.subs.map (fun s =>
      if s.subId = i then
        if s.done then s
        else
          match s.pushQueue with
          | v :: rest => { s with pushQueue := rest
                                  received := s.received ++ [v] }
          | [] => { s with pendingPulls := s.pendingPulls + 1 }
      else s) }

/-- Lookup of one subscription's state. -/
def findSub {α : Type} (ps : PubSubState α) (i : Nat) :
    Option (Subscription α) :=
  ps.subs.find? (fun s => s.subId = i)

end PubSub

-- ---------------------------------------------------------------------------
-- The observable data of a revision row, everything except the generated id
-- ---------------------------------------------------------------------------

/-- A revision row without its generated uuid: ticket, actor, field, old
value, new value, timestamp. -/
def revData (r : TicketRevision) :
    String × Option String × String × String × String × String :=
  (r.ticketId, r.agentId, r.field, r.oldValue, r.newValue, r.timestamp)

-- ---------------------------------------------------------------------------
-- A small concrete store used by the witnesses
-- ---------------------------------------------------------------------------

def sampleAgent : Agent :=
  ⟨"a1", "bot1", "ab-key-1", "2024-01-01 00:00:00"⟩

def sampleProject : Project :=
  ⟨"p1", "Demo", "", "2024-01-01 00:00:00"⟩

def sampleTicket : Ticket :=
  ⟨"t1", "p1", "Fix bug", "", .backlog, 0, none,
    "2024-01-01 00:00:00", "2024-01-01 00:00:00"⟩

def sampleTicketDone : Ticket :=
  ⟨"t2", "p1", "Shipped", "", .done, 0, some "a1",
    "2024-01-01 00:00:00", "2024-01-01 00:00:00"⟩

def sampleComment : Comment :=
  ⟨"c1", "t1", "a1", "hello", "2024-01-01 00:00:00"⟩

def sampleRevision : TicketRevision :=
  ⟨"r1", "t1", some "a1", "column", "backlog", "ready",
    "2024-01-01 00:00:00"⟩

def sampleDB : DBState :=
  ⟨[sampleAgent], [sampleProject], [sampleTicket, sampleTicketDone],
    [sampleComment], [sampleRevision], [], [], 100⟩

def samplePubSub : PubSub.PubSubState Nat :=
  ⟨[⟨0, "TICKET_UPDATED", false, true, [], 0, []⟩,
    ⟨1, "TICKET_UPDATED", false, true, [], 1, []⟩], 2⟩

-- ---------------------------------------------------------------------------
-- Theorems: general helper lemmas
-- ---------------------------------------------------------------------------

theorem asColumn_isSome_iff_valid (s : String) :
    (asColumn s).isSome = isValidColumn s := by
  by_cases h1 : s = "backlog" <;> by_cases h2 : s = "ready" <;>
    by_cases h3 : s = "in_progress" <;> by_cases h4 : s = "in_review" <;>
    by_cases h5 : s = "done" <;>
    simp [asColumn, isValidColumn, VALID_COLUMNS, List.contains,
      h1, h2, h3, h4, h5]

theorem asColumn_toWire (c : Column) : asColumn c.toWire = some c := by
  cases c <;> rfl

theorem find?_map_pred {β : Type} (p : β → Bool) (f : β → β)
    (hf : ∀ b, p (f b) = p b) (l : List β) :
    (l.map f).find? p = (l.find? p).map f := by
  induction l with
  | nil => rfl
  | cons a l ih =>
    simp only [List.map_cons, List.find?_cons]
    cases h : p a with
    | true => simp [hf, h]
    | false => simp [hf, h, ih]

theorem maxPos_of_empty (db : DBState) (pid : String) (c : Column)
    (h : ∀ x ∈ db.tickets, ¬ (x.projectId = pid ∧ x.column = c)) :
    AgentboardDB.maxPos db pid c = -1 := by
  unfold AgentboardDB.maxPos
  have : db.tickets.filter
      (fun t => t.projectId = pid && t.column = c) = [] := by
    apply List.filter_eq_nil_iff.mpr
    intro x hx
    have := h x hx
    simp only [Bool.and_eq_true, decide_eq_true_eq]
    tauto
  rw [this]
  rfl

theorem getTicket_map_update (l : List Ticket) (pid tid : String)
    (ex : Ticket) (g : Ticket → Ticket)
    (hex : l.find? (fun t => t.id = tid && t.projectId = pid) = some ex)
    (hg : ∀ x, (g x).id = x.id ∧ (g x).projectId = x.projectId) :
    (l.map (fun x => if x.id = tid && x.projectId = pid then g x else x)).find?
      (fun t => t.id = tid && t.projectId = pid) = some (g ex) := by
  rw [find?_map_pred]
  · rw [hex]
    have hx := List.find?_some hex
    simp only [Bool.and_eq_true, decide_eq_true_eq] at hx
    simp [hx.1, hx.2]
  · intro b
    by_cases hb : (b.id = tid && b.projectId = pid) = true
    · simp only [hb, if_pos]
      simp only [Bool.and_eq_true, decide_eq_true_eq] at hb ⊢
      rw [(hg b).1, (hg b).2]
      exact hb
    · simp only [if_neg hb]

theorem db_updateTicket_noop (db : DBState) (pid tid : String)
    (u : AgentboardDB.DBUpdates) (actorId : Option (Option String))
    (now : String) (ex : Ticket)
    (hex : AgentboardDB.getTicket db pid tid = some ex)
    (hag : u.agentId = none)
    (hT : u.title.getD ex.title = ex.title)
    (hD : u.description.getD ex.description = ex.description)
    (hC : u.column.getD ex.column = ex.column) :
    ∃ db', AgentboardDB.updateTicket db pid tid u actorId now =
        some (db', { ex with updatedAt := now }) ∧
      db'.revisions = db.revisions ∧
      db'.nextId = db.nextId ∧
      AgentboardDB.getTicket db' pid tid =
        some { ex with updatedAt := now } := by
  unfold AgentboardDB.updateTicket
  rw [hex]
  simp only [hag, hT, hD, hC, eq_self_iff_true, if_true]
  have hfind := getTicket_map_update db.tickets pid tid ex
    (fun x => { x with
      title := ex.title
      description := ex.description
      column := ex.column
      position := ex.position
      agentId := ex.agentId
      updatedAt := now }) hex (fun x => ⟨rfl, rfl⟩)
  dsimp only at hfind
  unfold AgentboardDB.getTicket
  dsimp only
  rw [hfind]
  exact ⟨_, rfl, rfl, rfl, hfind⟩

theorem db_moveTicket_changed (db : DBState) (pid tid : String) (c2 : Column)
    (actorId : Option (Option String)) (now : String) (ex : Ticket)
    (hex : AgentboardDB.getTicket db pid tid = some ex)
    (hne : ¬ c2 = ex.column) :
    ∃ db', AgentboardDB.moveTicket db pid tid c2 actorId now =
        some (db', { ex with
          column := c2
          position := AgentboardDB.maxPos db pid c2 + 1
          updatedAt := now }) ∧
      db'.revisions = db.revisions ++
        [⟨freshId db.nextId, tid, actorId.getD none, "column",
          ex.column.toWire, c2.toWire, now⟩] ∧
      AgentboardDB.getTicket db' pid tid = some { ex with
        column := c2
        position := AgentboardDB.maxPos db pid c2 + 1
        updatedAt := now } := by
  unfold AgentboardDB.moveTicket AgentboardDB.updateTicket
  rw [hex]
  dsimp only
  simp only [Option.getD_some, Option.getD_none, eq_self_iff_true, if_true,
    if_neg hne]
  unfold AgentboardDB.logRevision
  dsimp only
  have hfind := getTicket_map_update db.tickets pid tid ex
    (fun x => { x with
      title := ex.title
      description := ex.description
      column := c2
      position := AgentboardDB.maxPos db pid c2 + 1
      agentId := ex.agentId
      updatedAt := now }) hex (fun x => ⟨rfl, rfl⟩)
  unfold AgentboardDB.maxPos at hfind
  dsimp only at hfind
  unfold AgentboardDB.getTicket AgentboardDB.maxPos
  dsimp only
  rw [hfind]
  exact ⟨_, rfl, rfl, hfind⟩

theorem db_updateTicket_revisions (db : DBState) (pid tid : String)
    (u : AgentboardDB.DBUpdates) (actorId : Option (Option String))
    (now : String) (ex : Ticket)
    (hex : AgentboardDB.getTicket db pid tid = some ex)
    (hag : u.agentId = none) :
    ∃ db' t delta,
      AgentboardDB.updateTicket db pid tid u actorId now = some (db', t) ∧
      db'.revisions = db.revisions ++ delta ∧
      delta.map revData =
        (if u.title.getD ex.title = ex.title then []
         else [(tid, actorId.getD none, "title", ex.title,
           u.title.getD ex.title, now)]) ++
        (if u.description.getD ex.description = ex.description then []
         else [(tid, actorId.getD none, "description", ex.description,
           u.description.getD ex.description, now)]) ++
        (if u.column.getD ex.column = ex.column then []
         else [(tid, actorId.getD none, "column", ex.column.toWire,
           (u.column.getD ex.column).toWire, now)]) := by
  unfold AgentboardDB.updateTicket
  rw [hex]
  simp only [hag, eq_self_iff_true, if_true]
  unfold AgentboardDB.logRevision AgentboardDB.maxPos
  dsimp only
  simp only [apply_ite DBState.tickets, apply_ite DBState.revisions,
    apply_ite DBState.nextId, ite_self]
  have hfind := getTicket_map_update db.tickets pid tid ex
    (fun x => { x with
      title := u.title.getD ex.title
      description := u.description.getD ex.description
      column := u.column.getD ex.column
      position := if u.column.getD ex.column = ex.column then ex.position
        else (List.filter
          (fun t => t.projectId = pid && t.column = u.column.getD ex.column)
          db.tickets).foldl (fun m t => max m t.position) (-1) + 1
      agentId := ex.agentId
      updatedAt := now }) hex (fun x => ⟨rfl, rfl⟩)
  dsimp only at hfind
  unfold AgentboardDB.getTicket
  dsimp only
  rw [hfind]
  refine ⟨_, _,
    ((if u.title.getD ex.title = ex.title then ([] : List TicketRevision)
      else [⟨freshId db.nextId, tid, actorId.getD none, "title", ex.title,
        u.title.getD ex.title, now⟩]) ++
     (if u.description.getD ex.description = ex.description then []
      else [⟨freshId (if u.title.getD ex.title = ex.title then db.nextId
          else db.nextId + 1), tid, actorId.getD none, "description",
        ex.description, u.description.getD ex.description, now⟩]) ++
     (if u.column.getD ex.column = ex.column then []
      else [⟨freshId (if u.description.getD ex.description = ex.description
          then (if u.title.getD ex.title = ex.title then db.nextId
            else db.nextId + 1)
          else (if u.title.getD ex.title = ex.title then db.nextId
            else db.nextId + 1) + 1), tid, actorId.getD none, "column",
        ex.column.toWire, (u.column.getD ex.column).toWire, now⟩])),
    rfl, ?_, ?_⟩
  · by_cases hT : u.title.getD ex.title = ex.title <;>
      by_cases hD : u.description.getD ex.description = ex.description <;>
      by_cases hC : u.column.getD ex.column = ex.column <;>
      simp [hT, hD, hC]
  · by_cases hT : u.title.getD ex.title = ex.title <;>
      by_cases hD : u.description.getD ex.description = ex.description <;>
      by_cases hC : u.column.getD ex.column = ex.column <;>
      simp [hT, hD, hC, revData]

theorem db_updateTicket_result (db : DBState) (pid tid : String)
    (u : AgentboardDB.DBUpdates) (actorId : Option (Option String))
    (now : String) (ex : Ticket)
    (hex : AgentboardDB.getTicket db pid tid = some ex)
    (hag : u.agentId = none) :
    ∃ db',
      AgentboardDB.updateTicket db pid tid u actorId now =
        some (db', { ex with
          title := u.title.getD ex.title
          description := u.description.getD ex.description
          column := u.column.getD ex.column
          position :=
            if u.column.getD ex.column = ex.column then ex.position
            else AgentboardDB.maxPos db pid (u.column.getD ex.column) + 1
          updatedAt := now }) ∧
      AgentboardDB.getTicket db' pid tid = some { ex with
        title := u.title.getD ex.title
        description := u.description.getD ex.description
        column := u.column.getD ex.column
        position :=
          if u.column.getD ex.column = ex.column then ex.position
          else AgentboardDB.maxPos db pid (u.column.getD ex.column) + 1
        updatedAt := now } := by
  unfold AgentboardDB.updateTicket
  rw [hex]
  simp only [hag, eq_self_iff_true, if_true]
  unfold AgentboardDB.logRevision AgentboardDB.maxPos
  dsimp only
  simp only [apply_ite DBState.tickets, apply_ite DBState.revisions,
    apply_ite DBState.nextId, ite_self]
  have hfind := getTicket_map_update db.tickets pid tid ex
    (fun x => { x with
      title := u.title.getD ex.title
      description := u.description.getD ex.description
      column := u.column.getD ex.column
      position := if u.column.getD ex.column = ex.column then ex.position
        else (List.filter
          (fun t => t.projectId = pid && t.column = u.column.getD ex.column)
          db.tickets).foldl (fun m t => max m t.position) (-1) + 1
      agentId := ex.agentId
      updatedAt := now }) hex (fun x => ⟨rfl, rfl⟩)
  dsimp only at hfind
  unfold AgentboardDB.getTicket
  dsimp only
  rw [hfind]
  exact ⟨_, rfl, hfind⟩

-- ---------------------------------------------------------------------------
-- Claim theorems
-- ---------------------------------------------------------------------------

/-- C3: for every updateTicket call on an existing ticket in which any
supplied field is invalid (title present but empty after trimming,
description present but not a string, or column present but not one of the
five valid values), the call fails with a Validation error and the store —
so the ticket and its revision rows — and the event bus are untouched. -/
theorem C3_invalid_update_rejected_atomically
    (db : DBState) (pid tid : String) (updates : BoardService.UpdateInput)
    (actorId : Option (Option String)) (now : String) (ex : Ticket)
    (hex : AgentboardDB.getTicket db pid tid = some ex)
    (hbad : (∃ s, updates.title = some (JVal.str s) ∧ jsTrim s = "") ∨
      updates.description = some JVal.nonString ∨
      (∃ s, updates.column = some (JVal.str s) ∧ isValidColumn s = false) ∨
      updates.column = some JVal.nonString) :
    ∃ msg, BoardService.updateTicket db pid tid updates actorId now =
      (db, [], .error (.validation msg)) := by
  unfold BoardService.updateTicket
  rw [hex]
  dsimp only
  by_cases h1 : BoardService.badTitleInput updates.title = true
  · rw [if_pos h1]
    exact ⟨_, rfl⟩
  · rw [if_neg h1]
    by_cases h2 : BoardService.badDescriptionInput updates.description = true
    · rw [if_pos h2]
      exact ⟨_, rfl⟩
    · rw [if_neg h2]
      by_cases h3 : BoardService.badColumnInput updates.column = true
      · rw [if_pos h3]
        exact ⟨_, rfl⟩
      · exfalso
        rcases hbad with ⟨s, hs, hts⟩ | hd | ⟨s, hs, hcs⟩ | hc
        · rw [hs] at h1
          simp [BoardService.badTitleInput, hts] at h1
        · rw [hd] at h2
          simp [BoardService.badDescriptionInput] at h2
        · rw [hs] at h3
          simp [BoardService.badColumnInput, hcs] at h3
        · rw [hc] at h3
          simp [BoardService.badColumnInput] at h3

theorem C3_witness :
    AgentboardDB.getTicket sampleDB "p1" "t1" = some sampleTicket ∧
    (∃ msg, BoardService.updateTicket sampleDB "p1" "t1"
      { title := some (JVal.str "  ") } none "2024-01-02 00:00:00" =
      (sampleDB, [], .error (.validation msg))) :=
  ⟨by decide,
    C3_invalid_update_rejected_atomically sampleDB "p1" "t1"
      { title := some (JVal.str "  ") } none "2024-01-02 00:00:00"
      sampleTicket (by decide) (Or.inl ⟨"  ", rfl, by decide⟩)⟩

/-- C5: for every ticket already in column done, closeTicket leaves the
ticket's column unchanged (still done), leaves its position unchanged, and
produces zero TicketRevision rows. -/
theorem C5_close_done_is_noop (db : DBState) (pid tid now : String)
    (ex : Ticket)
    (hex : AgentboardDB.getTicket db pid tid = some ex)
    (hdone : ex.column = Column.done) :
    ∃ db' t, BoardService.closeTicket db pid tid now =
        (db', [Event.ticketMoved t t.projectId], .ok t) ∧
      t.column = Column.done ∧
      t.position = ex.position ∧
      db'.revisions = db.revisions := by
  have hkey := List.find?_some hex
  simp only [Bool.and_eq_true, decide_eq_true_eq] at hkey
  obtain ⟨hid, hpid⟩ := hkey
  obtain ⟨db1, hup, hrev, hnext, hget⟩ := db_updateTicket_noop db pid tid
    { column := some Column.done } (some none) now ex hex rfl rfl rfl
    (by simp [hdone])
  unfold BoardService.closeTicket
  rw [hex]
  dsimp only
  unfold AgentboardDB.moveTicket
  rw [hid, hup]
  dsimp only
  exact ⟨_, _, rfl, by simp [hdone], rfl, hrev⟩

theorem C5_witness :
    AgentboardDB.getTicket sampleDB "p1" "t2" = some sampleTicketDone ∧
    sampleTicketDone.column = Column.done ∧
    (∃ db' t, BoardService.closeTicket sampleDB "p1" "t2" "2024-01-03 00:00:00" =
        (db', [Event.ticketMoved t t.projectId], .ok t) ∧
      t.column = Column.done ∧
      t.position = sampleTicketDone.position ∧
      db'.revisions = sampleDB.revisions) :=
  ⟨by decide, by decide,
    C5_close_done_is_noop sampleDB "p1" "t2" "2024-01-03 00:00:00"
      sampleTicketDone (by decide) (by decide)⟩

/-- C2: for every ticket in column c1 and every valid column c2 ≠ c1,
moveTicket produces exactly one TicketRevision with field column,
oldValue c1, newValue c2, and leaves the ticket with column c2 and position
one plus the maximum position among tickets already in c2 of that project
(0 if c2 was empty). -/
theorem C2_move_ticket_column_change (db : DBState) (pid tid s now : String)
    (actorId : Option (Option String)) (ex : Ticket) (c2 : Column)
    (hex : AgentboardDB.getTicket db pid tid = some ex)
    (hcol : asColumn s = some c2)
    (hne : ¬ c2 = ex.column) :
    ∃ db' t entry,
      BoardService.moveTicket db pid tid (JVal.str s) actorId now =
        (db', [Event.ticketMoved t t.projectId, Event.auditAdded entry],
          .ok t) ∧
      t.column = c2 ∧
      t.position = AgentboardDB.maxPos db pid c2 + 1 ∧
      ((∀ x ∈ db.tickets, ¬ (x.projectId = pid ∧ x.column = c2)) →
        t.position = 0) ∧
      (∃ rid, db'.revisions = db.revisions ++
        [⟨rid, tid, actorId.getD none, "column", ex.column.toWire, c2.toWire,
          now⟩]) ∧
      AgentboardDB.getTicket db' pid tid = some t := by
  have hkey := List.find?_some hex
  simp only [Bool.and_eq_true, decide_eq_true_eq] at hkey
  obtain ⟨hid, hpid⟩ := hkey
  obtain ⟨db1, hup, hrev, hget⟩ := db_moveTicket_changed db pid tid c2
    (some (actorId.getD none)) now ex hex hne
  unfold BoardService.moveTicket
  rw [hex]
  dsimp only
  rw [hcol]
  dsimp only
  rw [hid, hup]
  dsimp only
  refine ⟨_, _, _, rfl, rfl, rfl, ?_, ⟨freshId db.nextId, ?_⟩, ?_⟩
  · intro hempty
    rw [maxPos_of_empty db pid c2 hempty]
    norm_num
  · exact hrev
  · exact hget

theorem C2_witness :
    AgentboardDB.getTicket sampleDB "p1" "t1" = some sampleTicket ∧
    asColumn "ready" = some Column.ready ∧
    ¬ Column.ready = sampleTicket.column ∧
    (∃ db' t entry,
      BoardService.moveTicket sampleDB "p1" "t1" (JVal.str "ready") none
        "2024-01-03 00:00:00" =
        (db', [Event.ticketMoved t t.projectId, Event.auditAdded entry],
          .ok t) ∧
      t.column = Column.ready ∧
      t.position = AgentboardDB.maxPos sampleDB "p1" Column.ready + 1 ∧
      ((∀ x ∈ sampleDB.tickets,
        ¬ (x.projectId = "p1" ∧ x.column = Column.ready)) →
        t.position = 0) ∧
      (∃ rid, db'.revisions = sampleDB.revisions ++
        [⟨rid, "t1", none, "column", sampleTicket.column.toWire,
          Column.ready.toWire, "2024-01-03 00:00:00"⟩]) ∧
      AgentboardDB.getTicket db' "p1" "t1" = some t) :=
  ⟨by decide, by decide, by decide,
    C2_move_ticket_column_change sampleDB "p1" "t1" "ready"
      "2024-01-03 00:00:00" none sampleTicket Column.ready (by decide)
      (by decide) (by decide)⟩

theorem find?_append_singleton {β : Type} (p : β → Bool) (l : List β)
    (h : ∀ x ∈ l, p x = false) (t : β) (hpt : p t = true) :
    (l ++ [t]).find? p = some t := by
  induction l with
  | nil => simp [List.find?, hpt]
  | cons a l ih =>
    have ha := h a (by simp)
    simp only [List.cons_append, List.find?_cons, ha]
    exact ih (fun x hx => h x (by simp [hx]))

/-- C8: creating a ticket with a non-empty title and no column argument
into an existing project yields a ticket whose title is the trimmed input,
whose column is backlog, and whose position is one plus the current maximum
position in that project+column (0 when the column holds no tickets); the
ticket reads back unchanged. -/
theorem C8_create_ticket_round_trip (db : DBState) (pid title : String)
    (description : Option String) (agentId : Option (Option String))
    (now : String) (proj : Project)
    (hp : AgentboardDB.getProject db pid = some proj)
    (ht : ¬ jsTrim title = "")
    (hfresh : ∀ x ∈ db.tickets, ¬ x.id = freshId db.nextId) :
    ∃ db' t evs,
      BoardService.createTicket db pid (JVal.str title) description none
        agentId now = (db', evs, .ok t) ∧
      t.title = jsTrim title ∧
      t.column = Column.backlog ∧
      t.position = AgentboardDB.maxPos db pid Column.backlog + 1 ∧
      ((∀ x ∈ db.tickets, ¬ (x.projectId = pid ∧ x.column = Column.backlog)) →
        t.position = 0) ∧
      AgentboardDB.getTicket db' pid t.id = some t := by
  unfold BoardService.createTicket
  rw [hp]
  dsimp only
  rw [if_neg ht]
  simp only [Option.getD_none]
  rw [show asColumn "backlog" = some Column.backlog from rfl]
  dsimp only
  unfold AgentboardDB.createTicket
  dsimp only
  refine ⟨_, _, _, rfl, rfl, rfl, rfl, ?_, ?_⟩
  · intro hempty
    rw [maxPos_of_empty db pid Column.backlog hempty]
    norm_num
  · unfold AgentboardDB.getTicket
    dsimp only
    apply find?_append_singleton
    · intro x hx
      simp only [Bool.and_eq_true, decide_eq_true_eq, Bool.and_eq_false_iff]
      left
      simp [hfresh x hx]
    · simp

theorem C8_witness :
    AgentboardDB.getProject sampleDB "p1" = some sampleProject ∧
    ¬ jsTrim "T" = "" ∧
    (∃ db' t evs,
      BoardService.createTicket sampleDB "p1" (JVal.str "T") none none none
        "2024-01-03 00:00:00" = (db', evs, .ok t) ∧
      t.title = jsTrim "T" ∧
      t.column = Column.backlog ∧
      t.position = AgentboardDB.maxPos sampleDB "p1" Column.backlog + 1 ∧
      ((∀ x ∈ sampleDB.tickets,
        ¬ (x.projectId = "p1" ∧ x.column = Column.backlog)) →
        t.position = 0) ∧
      AgentboardDB.getTicket db' "p1" t.id = some t) :=
  ⟨by decide, by decide,
    C8_create_ticket_round_trip sampleDB "p1" "T" none none
      "2024-01-03 00:00:00" sampleProject (by decide) (by decide)
      (by decide)⟩

/-- C6: for two createAgent calls whose names trim to the same value, the
second call fails with a Duplicate error (not a generic Validation error),
leaves the agent store unchanged, and afterwards exactly one agent with
that name exists. -/
theorem C6_duplicate_agent_name (db : DBState) (n m : String)
    (a1 a2 : Option (Option String)) (now1 now2 : String)
    (hn : ¬ jsTrim n = "") (hm : jsTrim m = jsTrim n)
    (h0 : ∀ a ∈ db.agents, ¬ a.name = jsTrim n) :
    ∃ db1 agent evs,
      BoardService.createAgent db (JVal.str n) a1 now1 =
        (db1, evs, .ok agent) ∧
      agent.name = jsTrim n ∧
      (∃ msg, BoardService.createAgent db1 (JVal.str m) a2 now2 =
        (db1, [], .error (.duplicate msg))) ∧
      (db1.agents.filter (fun a => a.name = jsTrim n)).length = 1 := by
  have hany : (db.agents.any (fun a => a.name = jsTrim n)) = false := by
    rw [List.any_eq_false]
    intro a ha
    simp [h0 a ha]
  unfold BoardService.createAgent
  dsimp only
  rw [if_neg hn]
  unfold AgentboardDB.createAgent
  rw [hany, if_neg Bool.false_ne_true]
  unfold BoardService.audit AgentboardDB.logAudit
  dsimp only
  refine ⟨_, _, _, rfl, rfl,
    ⟨"Agent name \"" ++ m ++ "\" is already taken", ?_⟩, ?_⟩
  · rw [hm, if_neg hn]
    dsimp only
    have hany2 : ((db.agents ++
        [(⟨freshId db.nextId, jsTrim n, "ab-" ++ freshId (db.nextId + 1),
          now1⟩ : Agent)]).any (fun a => a.name = jsTrim n)) = true := by
      rw [List.any_append]
      simp
    rw [hany2, if_pos rfl]
    dsimp only
    rw [if_pos (by decide)]
  · rw [List.filter_append]
    rw [List.filter_eq_nil_iff.mpr (fun a ha => by simp [h0 a ha])]
    simp

theorem C6_witness :
    ¬ jsTrim "botX" = "" ∧
    (∀ a ∈ sampleDB.agents, ¬ a.name = jsTrim "botX") ∧
    (∃ db1 agent evs,
      BoardService.createAgent sampleDB (JVal.str "botX") none "2024-01-03 00:00:00" =
        (db1, evs, .ok agent) ∧
      agent.name = jsTrim "botX" ∧
      (∃ msg, BoardService.createAgent db1 (JVal.str " botX ") none "2024-01-04 00:00:00" =
        (db1, [], .error (.duplicate msg))) ∧
      (db1.agents.filter (fun a => a.name = jsTrim "botX")).length = 1) :=
  ⟨by decide, by decide,
    C6_duplicate_agent_name sampleDB "botX" " botX " none none
      "2024-01-03 00:00:00" "2024-01-04 00:00:00" (by decide) (by decide)
      (by decide)⟩

/-- C7: deleting a project leaves zero tickets, zero comments, and zero
revisions referencing that project (through its tickets); deleting an agent
that authored a revision leaves every revision present with its agent
reference set to null, never deleting revision history. -/
theorem C7_delete_cascades (db : DBState) (pid aid : String)
    (actorId : Option (Option String)) (now : String)
    (proj : Project) (ag : Agent)
    (hp : AgentboardDB.getProject db pid = some proj)
    (ha : AgentboardDB.getAgentById db aid = some ag) :
    (∃ db1 evs, BoardService.deleteProject db pid actorId now =
      (db1, evs, .ok ()) ∧
      db1.tickets.filter (fun t => t.projectId = pid) = [] ∧
      (∀ c ∈ db1.comments, ∀ t ∈ db.tickets, t.projectId = pid →
        ¬ c.ticketId = t.id) ∧
      (∀ r ∈ db1.revisions, ∀ t ∈ db.tickets, t.projectId = pid →
        ¬ r.ticketId = t.id)) ∧
    (∃ db2, BoardService.deleteAgent db aid =
      (db2, [Event.agentChanged ag], .ok ()) ∧
      db2.revisions = db.revisions.map (fun r =>
        if r.agentId = some aid then { r with agentId := none } else r) ∧
      db2.revisions.length = db.revisions.length ∧
      (∀ r ∈ db2.revisions, ¬ r.agentId = some aid)) := by
  constructor
  · unfold BoardService.deleteProject
    rw [hp]
    unfold AgentboardDB.deleteProject BoardService.audit AgentboardDB.logAudit
    dsimp only
    refine ⟨_, _, rfl, ?_, ?_, ?_⟩
    · rw [List.filter_filter]
      apply List.filter_eq_nil_iff.mpr
      intro x _
      simp
    · intro c hc t ht hpt hct
      rw [List.mem_filter] at hc
      have hdead := hc.2
      simp at hdead
      exact hdead t ht hct.symm hpt
    · intro r hr t ht hpt hrt
      rw [List.mem_filter] at hr
      have hdead := hr.2
      simp at hdead
      exact hdead t ht hrt.symm hpt
  · unfold BoardService.deleteAgent
    rw [ha]
    unfold AgentboardDB.deleteAgent
    dsimp only
    refine ⟨_, rfl, rfl, by simp, ?_⟩
    intro r hr
    rw [List.mem_map] at hr
    obtain ⟨r0, _, rfl⟩ := hr
    by_cases h : r0.agentId = some aid <;> simp [h]

theorem C7_witness :
    AgentboardDB.getProject sampleDB "p1" = some sampleProject ∧
    AgentboardDB.getAgentById sampleDB "a1" = some sampleAgent ∧
    ((∃ db1 evs, BoardService.deleteProject sampleDB "p1" none "2024-01-03 00:00:00" =
      (db1, evs, .ok ()) ∧
      db1.tickets.filter (fun t => t.projectId = "p1") = [] ∧
      (∀ c ∈ db1.comments, ∀ t ∈ sampleDB.tickets, t.projectId = "p1" →
        ¬ c.ticketId = t.id) ∧
      (∀ r ∈ db1.revisions, ∀ t ∈ sampleDB.tickets, t.projectId = "p1" →
        ¬ r.ticketId = t.id)) ∧
    (∃ db2, BoardService.deleteAgent sampleDB "a1" =
      (db2, [Event.agentChanged sampleAgent], .ok ()) ∧
      db2.revisions = sampleDB.revisions.map (fun r =>
        if r.agentId = some "a1" then { r with agentId := none } else r) ∧
      db2.revisions.length = sampleDB.revisions.length ∧
      (∀ r ∈ db2.revisions, ¬ r.agentId = some "a1"))) :=
  ⟨by decide, by decide,
    C7_delete_cascades sampleDB "p1" "a1" none "2024-01-03 00:00:00"
      sampleProject sampleAgent (by decide) (by decide)⟩

theorem exists_field_iff_revData (delta : List TicketRevision) (f : String) :
    (∃ r ∈ delta, r.field = f) ↔
      ∃ x ∈ delta.map revData, x.2.2.1 = f := by
  simp [revData]

set_option maxHeartbeats 1000000 in
/-- C1: for every valid updateTicket call on an existing ticket, a
TicketRevision row is recorded for a given field if and only if that
field's new value (title trimmed, each field defaulting to the current
value when not supplied) differs from the ticket's current value; in
particular an update in which no supplied field differs creates zero
TicketRevision rows. -/
theorem C1_revision_iff_field_changed (db : DBState) (pid tid : String)
    (updates : BoardService.UpdateInput) (actorId : Option (Option String))
    (now : String) (ex : Ticket)
    (hex : AgentboardDB.getTicket db pid tid = some ex)
    (hT : updates.title = none ∨
      ∃ s, updates.title = some (JVal.str s) ∧ ¬ jsTrim s = "")
    (hD : updates.description = none ∨
      ∃ s, updates.description = some (JVal.str s))
    (hC : updates.column = none ∨
      ∃ s c, updates.column = some (JVal.str s) ∧ asColumn s = some c) :
    ∃ db' t evs delta,
      BoardService.updateTicket db pid tid updates actorId now =
        (db', evs, .ok t) ∧
      db'.revisions = db.revisions ++ delta ∧
      (∀ f : String, (∃ r ∈ delta, r.field = f) ↔
        ((f = "title" ∧
          ¬ (BoardService.cleanUpdatesOf updates).title.getD ex.title
            = ex.title) ∨
         (f = "description" ∧
          ¬ (BoardService.cleanUpdatesOf updates).description.getD
            ex.description = ex.description) ∨
         (f = "column" ∧
          ¬ (BoardService.cleanUpdatesOf updates).column.getD ex.column
            = ex.column))) ∧
      (((BoardService.cleanUpdatesOf updates).title.getD ex.title
          = ex.title ∧
        (BoardService.cleanUpdatesOf updates).description.getD
          ex.description = ex.description ∧
        (BoardService.cleanUpdatesOf updates).column.getD ex.column
          = ex.column) → delta = []) := by
  have hb1 : BoardService.badTitleInput updates.title = false := by
    rcases hT with h | ⟨s, hs, hne⟩
    · simp [BoardService.badTitleInput, h]
    · simp [BoardService.badTitleInput, hs, hne]
  have hb2 : BoardService.badDescriptionInput updates.description = false := by
    rcases hD with h | ⟨s, hs⟩
    · simp [BoardService.badDescriptionInput, h]
    · simp [BoardService.badDescriptionInput, hs]
  have hb3 : BoardService.badColumnInput updates.column = false := by
    rcases hC with h | ⟨s, c, hs, hc⟩
    · simp [BoardService.badColumnInput, h]
    · have hv : isValidColumn s = true := by
        rw [← asColumn_isSome_iff_valid, hc]
        rfl
      simp [BoardService.badColumnInput, hs, hv]
  have hkey := List.find?_some hex
  simp only [Bool.and_eq_true, decide_eq_true_eq] at hkey
  obtain ⟨hid, hpid⟩ := hkey
  obtain ⟨db1, t1, delta, hup, hrev, hmap⟩ := db_updateTicket_revisions db pid
    tid (BoardService.cleanUpdatesOf updates) (some (actorId.getD none)) now
    ex hex rfl
  unfold BoardService.updateTicket
  rw [hex]
  dsimp only
  simp only [hb1, hb2, hb3, Bool.false_eq_true, if_false]
  rw [hid, hup]
  unfold BoardService.audit AgentboardDB.logAudit AgentboardDB.logActivity
  dsimp only
  refine ⟨_, _, _, delta, rfl, hrev, ?_, ?_⟩
  · intro f
    rw [exists_field_iff_revData, hmap]
    by_cases c1 : (BoardService.cleanUpdatesOf updates).title.getD ex.title
        = ex.title <;>
      by_cases c2 : (BoardService.cleanUpdatesOf updates).description.getD
        ex.description = ex.description <;>
      by_cases c3 : (BoardService.cleanUpdatesOf updates).column.getD
        ex.column = ex.column <;>
      simp [c1, c2, c3] <;> tauto
  · rintro ⟨c1, c2, c3⟩
    simp only [c1, c2, c3, eq_self_iff_true, if_true, List.append_nil] at hmap
    exact List.map_eq_nil_iff.mp hmap

theorem C1_witness :
    ∃ db' t evs delta,
      BoardService.updateTicket sampleDB "p1" "t1"
        { title := some (JVal.str "New title") } none "2024-01-05 00:00:00" =
        (db', evs, .ok t) ∧
      db'.revisions = sampleDB.revisions ++ delta ∧
      (∀ f : String, (∃ r ∈ delta, r.field = f) ↔
        ((f = "title" ∧
          ¬ (BoardService.cleanUpdatesOf
            { title := some (JVal.str "New title") }).title.getD
            sampleTicket.title = sampleTicket.title) ∨
         (f = "description" ∧
          ¬ (BoardService.cleanUpdatesOf
            { title := some (JVal.str "New title") }).description.getD
            sampleTicket.description = sampleTicket.description) ∨
         (f = "column" ∧
          ¬ (BoardService.cleanUpdatesOf
            { title := some (JVal.str "New title") }).column.getD
            sampleTicket.column = sampleTicket.column))) ∧
      (((BoardService.cleanUpdatesOf
          { title := some (JVal.str "New title") }).title.getD
          sampleTicket.title = sampleTicket.title ∧
        (BoardService.cleanUpdatesOf
          { title := some (JVal.str "New title") }).description.getD
          sampleTicket.description = sampleTicket.description ∧
        (BoardService.cleanUpdatesOf
          { title := some (JVal.str "New title") }).column.getD
          sampleTicket.column = sampleTicket.column) → delta = []) :=
  C1_revision_iff_field_changed sampleDB "p1" "t1"
    { title := some (JVal.str "New title") } none "2024-01-05 00:00:00"
    sampleTicket (by decide) (Or.inr ⟨"New title", rfl, by decide⟩)
    (Or.inl rfl) (Or.inl rfl)

/-- C4 counterexample: a no-op update (supplied title equals the current
title) records zero revisions, yet the service still publishes a
TICKET_UPDATED event — refuting "does not publish a ticket-updated event
on the event bus". -/
theorem C4_counterexample :
    (BoardService.updateTicket sampleDB "p1" "t1"
      { title := some (JVal.str "Fix bug") } none
      "2024-01-06 00:00:00").1.revisions = sampleDB.revisions ∧
    ((BoardService.updateTicket sampleDB "p1" "t1"
      { title := some (JVal.str "Fix bug") } none
      "2024-01-06 00:00:00").2.1.any (fun e =>
        match e with
        | Event.ticketUpdated _ _ => true
        | _ => false)) = true := by decide

/-- The no-op service update: a valid update whose supplied fields all
equal the ticket's current values returns the ticket with only updatedAt
refreshed, records zero revisions, leaves the stored row otherwise
unchanged, and still publishes TICKET_UPDATED followed by AUDIT_ADDED. -/
theorem service_noop_update_spec (db : DBState)
    (pid tid : String) (updates : BoardService.UpdateInput)
    (actorId : Option (Option String)) (now : String) (ex : Ticket)
    (hex : AgentboardDB.getTicket db pid tid = some ex)
    (hT : updates.title = none ∨
      ∃ s, updates.title = some (JVal.str s) ∧ jsTrim s = ex.title ∧
        ¬ jsTrim s = "")
    (hD : updates.description = none ∨
      ∃ s, updates.description = some (JVal.str s) ∧ s = ex.description)
    (hC : updates.column = none ∨
      ∃ s, updates.column = some (JVal.str s) ∧
        asColumn s = some ex.column) :
    ∃ db' entry,
      BoardService.updateTicket db pid tid updates actorId now =
        (db', [Event.ticketUpdated { ex with updatedAt := now }
          ex.projectId, Event.auditAdded entry],
          .ok { ex with updatedAt := now }) ∧
      db'.revisions = db.revisions ∧
      AgentboardDB.getTicket db' pid tid =
        some { ex with updatedAt := now } := by
  have hb1 : BoardService.badTitleInput updates.title = false := by
    rcases hT with h | ⟨s, hs, _, hne⟩
    · simp [BoardService.badTitleInput, h]
    · simp [BoardService.badTitleInput, hs, hne]
  have hb2 : BoardService.badDescriptionInput updates.description = false := by
    rcases hD with h | ⟨s, hs, _⟩
    · simp [BoardService.badDescriptionInput, h]
    · simp [BoardService.badDescriptionInput, hs]
  have hb3 : BoardService.badColumnInput updates.column = false := by
    rcases hC with h | ⟨s, hs, hc⟩
    · simp [BoardService.badColumnInput, h]
    · have hv : isValidColumn s = true := by
        rw [← asColumn_isSome_iff_valid, hc]
        rfl
      simp [BoardService.badColumnInput, hs, hv]
  have hkey := List.find?_some hex
  simp only [Bool.and_eq_true, decide_eq_true_eq] at hkey
  obtain ⟨hid, hpid⟩ := hkey
  have hcT : (BoardService.cleanUpdatesOf updates).title.getD ex.title
      = ex.title := by
    rcases hT with h | ⟨s, hs, he, _⟩
    · simp [BoardService.cleanUpdatesOf, h]
    · simp [BoardService.cleanUpdatesOf, hs, he]
  have hcD : (BoardService.cleanUpdatesOf updates).description.getD
      ex.description = ex.description := by
    rcases hD with h | ⟨s, hs, he⟩
    · simp [BoardService.cleanUpdatesOf, h]
    · simp [BoardService.cleanUpdatesOf, hs, he]
  have hcC : (BoardService.cleanUpdatesOf updates).column.getD ex.column
      = ex.column := by
    rcases hC with h | ⟨s, hs, hc⟩
    · simp [BoardService.cleanUpdatesOf, h]
    · simp [BoardService.cleanUpdatesOf, hs, hc]
  obtain ⟨db1, hup, hrev, hnext, hget⟩ := db_updateTicket_noop db pid tid
    (BoardService.cleanUpdatesOf updates) (some (actorId.getD none)) now ex
    hex rfl hcT hcD hcC
  rw [← hid] at hup
  unfold BoardService.updateTicket
  rw [hex]
  dsimp only
  simp only [hb1, hb2, hb3, Bool.false_eq_true, if_false]
  rw [hup]
  unfold BoardService.audit AgentboardDB.logAudit AgentboardDB.logActivity
  dsimp only
  exact ⟨_, _, rfl, hrev, hget⟩

/-- C4 (amended): for every updateTicket call in which no supplied field
differs from the ticket's current value, the service returns the ticket
unchanged except for its refreshed updatedAt, records zero revisions, but
still publishes a ticket-updated event (followed by an audit event) on the
event bus. -/
theorem C4_amended_noop_update_still_publishes (db : DBState)
    (pid tid : String) (updates : BoardService.UpdateInput)
    (actorId : Option (Option String)) (now : String) (ex : Ticket)
    (hex : AgentboardDB.getTicket db pid tid = some ex)
    (hT : updates.title = none ∨
      ∃ s, updates.title = some (JVal.str s) ∧ jsTrim s = ex.title ∧
        ¬ jsTrim s = "")
    (hD : updates.description = none ∨
      ∃ s, updates.description = some (JVal.str s) ∧ s = ex.description)
    (hC : updates.column = none ∨
      ∃ s, updates.column = some (JVal.str s) ∧
        asColumn s = some ex.column) :
    ∃ db' entry,
      BoardService.updateTicket db pid tid updates actorId now =
        (db', [Event.ticketUpdated { ex with updatedAt := now }
          ex.projectId, Event.auditAdded entry],
          .ok { ex with updatedAt := now }) ∧
      db'.revisions = db.revisions := by
  obtain ⟨db', entry, hcall, hrev, _⟩ :=
    service_noop_update_spec db pid tid updates actorId now ex hex hT hD hC
  exact ⟨db', entry, hcall, hrev⟩

theorem C4_amended_witness :
    ∃ db' entry,
      BoardService.updateTicket sampleDB "p1" "t1"
        { title := some (JVal.str "Fix bug") } none "2024-01-06 00:00:00" =
        (db', [Event.ticketUpdated
          { sampleTicket with updatedAt := "2024-01-06 00:00:00" }
          sampleTicket.projectId, Event.auditAdded entry],
          .ok { sampleTicket with updatedAt := "2024-01-06 00:00:00" }) ∧
      db'.revisions = sampleDB.revisions :=
  C4_amended_noop_update_still_publishes sampleDB "p1" "t1"
    { title := some (JVal.str "Fix bug") } none "2024-01-06 00:00:00"
    sampleTicket (by decide)
    (Or.inr ⟨"Fix bug", rfl, by decide, by decide⟩) (Or.inl rfl) (Or.inl rfl)


/-- C10 counterexample: a zero-change update issued at a timestamp equal to
the ticket's stored updatedAt (possible, since `datetime('now')` has
one-second granularity) returns a ticket byte-for-byte identical to the
stored ticket before the call, and the stored row is unchanged — refuting
"the returned ticket is not byte-for-byte identical to the stored ticket
before the call". -/
theorem C10_counterexample :
    AgentboardDB.getTicket sampleDB "p1" "t1" = some sampleTicket ∧
    (BoardService.updateTicket sampleDB "p1" "t1"
      { title := some (JVal.str "Fix bug") } none
      "2024-01-01 00:00:00").2.2 = Except.ok sampleTicket ∧
    AgentboardDB.getTicket
      (BoardService.updateTicket sampleDB "p1" "t1"
        { title := some (JVal.str "Fix bug") } none
        "2024-01-01 00:00:00").1 "p1" "t1" = some sampleTicket := by decide

/-- C10 (amended): every successful updateTicket (and moveTicket) call on
an existing ticket, including field-changing updates, rewrites the ticket
row and sets its updatedAt to the call's timestamp; on a zero-change
update the updatedAt field is the only field that can change, so the
returned ticket differs from the stored ticket before the call if and
only if the call's timestamp differs from the stored updatedAt. -/
theorem C10_amended_updatedAt_refresh (db : DBState) (pid tid : String)
    (updates : BoardService.UpdateInput) (actorId : Option (Option String))
    (now : String) (ex : Ticket)
    (hex : AgentboardDB.getTicket db pid tid = some ex)
    (hT : updates.title = none ∨
      ∃ s, updates.title = some (JVal.str s) ∧ ¬ jsTrim s = "")
    (hD : updates.description = none ∨
      ∃ s, updates.description = some (JVal.str s))
    (hC : updates.column = none ∨
      ∃ s c, updates.column = some (JVal.str s) ∧ asColumn s = some c) :
    (∃ db' t evs,
      BoardService.updateTicket db pid tid updates actorId now =
        (db', evs, .ok t) ∧
      t.updatedAt = now ∧
      AgentboardDB.getTicket db' pid tid = some t ∧
      (((BoardService.cleanUpdatesOf updates).title.getD ex.title
          = ex.title ∧
        (BoardService.cleanUpdatesOf updates).description.getD ex.description
          = ex.description ∧
        (BoardService.cleanUpdatesOf updates).column.getD ex.column
          = ex.column) →
        t = { ex with updatedAt := now } ∧
        (t = ex ↔ now = ex.updatedAt))) ∧
    (∀ s c2, asColumn s = some c2 →
      ∃ db2 evs2 t2,
        BoardService.moveTicket db pid tid (JVal.str s) actorId now =
          (db2, evs2, .ok t2) ∧
        t2.updatedAt = now ∧
        AgentboardDB.getTicket db2 pid tid = some t2) := by
  have hkey := List.find?_some hex
  simp only [Bool.and_eq_true, decide_eq_true_eq] at hkey
  obtain ⟨hid, hpid⟩ := hkey
  constructor
  · have hb1 : BoardService.badTitleInput updates.title = false := by
      rcases hT with h | ⟨s, hs, hne⟩
      · simp [BoardService.badTitleInput, h]
      · simp [BoardService.badTitleInput, hs, hne]
    have hb2 : BoardService.badDescriptionInput updates.description
        = false := by
      rcases hD with h | ⟨s, hs⟩
      · simp [BoardService.badDescriptionInput, h]
      · simp [BoardService.badDescriptionInput, hs]
    have hb3 : BoardService.badColumnInput updates.column = false := by
      rcases hC with h | ⟨s, c, hs, hc⟩
      · simp [BoardService.badColumnInput, h]
      · have hv : isValidColumn s = true := by
          rw [← asColumn_isSome_iff_valid, hc]
          rfl
        simp [BoardService.badColumnInput, hs, hv]
    obtain ⟨db1, hup, hget⟩ := db_updateTicket_result db pid tid
      (BoardService.cleanUpdatesOf updates) (some (actorId.getD none)) now
      ex hex rfl
    rw [← hid] at hup
    unfold BoardService.updateTicket
    rw [hex]
    dsimp only
    simp only [hb1, hb2, hb3, Bool.false_eq_true, if_false]
    rw [hup]
    unfold BoardService.audit AgentboardDB.logAudit AgentboardDB.logActivity
    dsimp only
    refine ⟨_, _, _, rfl, rfl, hget, ?_⟩
    rintro ⟨c1, c2, c3⟩
    rw [c1, c2, c3]
    simp only [eq_self_iff_true, if_true]
    refine ⟨trivial, ?_, ?_⟩
    · intro h
      exact congrArg Ticket.updatedAt h
    · intro h
      rw [h]
  · intro s c2 hcol
    by_cases hceq : c2 = ex.column
    · obtain ⟨db1, hup, hrev, hnext, hget⟩ := db_updateTicket_noop db pid tid
        { column := some c2 } (some (actorId.getD none)) now ex hex rfl rfl
        rfl (by simp [hceq])
      rw [← hid] at hup
      unfold BoardService.moveTicket
      rw [hex]
      dsimp only
      rw [hcol]
      dsimp only
      unfold AgentboardDB.moveTicket
      rw [hup]
      unfold BoardService.audit AgentboardDB.logAudit AgentboardDB.logActivity
      dsimp only
      exact ⟨_, _, _, rfl, rfl, hget⟩
    · obtain ⟨db1, hup, hrev, hget⟩ := db_moveTicket_changed db pid tid c2
        (some (actorId.getD none)) now ex hex hceq
      rw [← hid] at hup
      unfold BoardService.moveTicket
      rw [hex]
      dsimp only
      rw [hcol]
      dsimp only
      rw [hup]
      unfold BoardService.audit AgentboardDB.logAudit AgentboardDB.logActivity
      dsimp only
      exact ⟨_, _, _, rfl, rfl, hget⟩

theorem C10_amended_witness :
    (∃ db' t evs,
      BoardService.updateTicket sampleDB "p1" "t1"
        { title := some (JVal.str "Renamed") } none "2024-01-07 00:00:00" =
        (db', evs, .ok t) ∧
      t.updatedAt = "2024-01-07 00:00:00" ∧
      AgentboardDB.getTicket db' "p1" "t1" = some t ∧
      (((BoardService.cleanUpdatesOf
          { title := some (JVal.str "Renamed") }).title.getD
          sampleTicket.title = sampleTicket.title ∧
        (BoardService.cleanUpdatesOf
          { title := some (JVal.str "Renamed") }).description.getD
          sampleTicket.description = sampleTicket.description ∧
        (BoardService.cleanUpdatesOf
          { title := some (JVal.str "Renamed") }).column.getD
          sampleTicket.column = sampleTicket.column) →
        t = { sampleTicket with updatedAt := "2024-01-07 00:00:00" } ∧
        (t = sampleTicket ↔
          "2024-01-07 00:00:00" = sampleTicket.updatedAt))) ∧
    (∀ s c2, asColumn s = some c2 →
      ∃ db2 evs2 t2,
        BoardService.moveTicket sampleDB "p1" "t1" (JVal.str s) none
          "2024-01-07 00:00:00" = (db2, evs2, .ok t2) ∧
        t2.updatedAt = "2024-01-07 00:00:00" ∧
        AgentboardDB.getTicket db2 "p1" "t1" = some t2) :=
  C10_amended_updatedAt_refresh sampleDB "p1" "t1"
    { title := some (JVal.str "Renamed") } none "2024-01-07 00:00:00"
    sampleTicket (by decide)
    (Or.inr ⟨"Renamed", rfl, by decide⟩) (Or.inl rfl) (Or.inl rfl)

/-- C9: cancelling one subscription (return() on its iterator) is
idempotent, releases its listener and queues, and does not affect any
other subscriber of the same channel: after the cancellation a publish
delivers nothing to the cancelled subscription, leaves every other
subscription exactly as a publish without the cancellation would, and a
live subscriber of the channel still receives the payload (immediately or
queued). -/
theorem C9_cancel_idempotent_and_isolated {α : Type}
    (ps : PubSub.PubSubState α) (i j : Nat) (ev : String) (p : α)
    (hij : ¬ j = i) :
    PubSub.returnIter (PubSub.returnIter ps i) i = PubSub.returnIter ps i ∧
    (∀ s, PubSub.findSub (PubSub.returnIter ps i) i = some s →
      s.done = true ∧ s.registered = false ∧ s.pushQueue = [] ∧
      s.pendingPulls = 0) ∧
    PubSub.findSub (PubSub.publish (PubSub.returnIter ps i) ev p) i =
      PubSub.findSub (PubSub.returnIter ps i) i ∧
    PubSub.findSub (PubSub.publish (PubSub.returnIter ps i) ev p) j =
      PubSub.findSub (PubSub.publish ps ev p) j ∧
    (∀ s, PubSub.findSub ps j = some s → s.registered = true →
      s.event = ev →
      PubSub.findSub (PubSub.publish (PubSub.returnIter ps i) ev p) j =
        some (PubSub.handleEvent ev p s) ∧
      ((PubSub.handleEvent ev p s).received = s.received ++ [p] ∨
        (PubSub.handleEvent ev p s).pushQueue = s.pushQueue ++ [p])) := by
  have hgid : ∀ s : PubSub.Subscription α,
      ((if s.subId = i then PubSub.cancelSub s else s).subId = s.subId) := by
    intro s
    by_cases h : s.subId = i <;> simp [h, PubSub.cancelSub]
  have hhid : ∀ s : PubSub.Subscription α,
      (PubSub.handleEvent ev p s).subId = s.subId := by
    intro s
    unfold PubSub.handleEvent
    by_cases h : (s.registered && s.event = ev) = true <;>
      by_cases h2 : s.pendingPulls > 0 <;> simp [h, h2]
  have hgp : ∀ k : Nat, ∀ s : PubSub.Subscription α,
      (decide ((if s.subId = i then PubSub.cancelSub s else s).subId = k)) =
        decide (s.subId = k) := by
    intro k s
    rw [hgid s]
  have hhp : ∀ k : Nat, ∀ s : PubSub.Subscription α,
      (decide ((PubSub.handleEvent ev p s).subId = k)) =
        decide (s.subId = k) := by
    intro k s
    rw [hhid s]
  refine ⟨?_, ?_, ?_, ?_, ?_⟩
  · unfold PubSub.returnIter
    dsimp only
    rw [List.map_map]
    congr 1
    apply List.map_congr_left
    intro s _
    simp only [Function.comp_apply]
    by_cases h : s.subId = i
    · simp [h, PubSub.cancelSub]
    · simp [h]
  · intro s hs
    unfold PubSub.findSub PubSub.returnIter at hs
    dsimp only at hs
    rw [find?_map_pred _ _ (hgp i)] at hs
    cases hfind : ps.subs.find? (fun s => s.subId = i) with
    | none => rw [hfind] at hs; cases hs
    | some s0 =>
      rw [hfind] at hs
      have hs0 := List.find?_some hfind
      simp only [decide_eq_true_eq] at hs0
      simp only [Option.map_some'] at hs
      rw [if_pos hs0] at hs
      cases hs
      simp [PubSub.cancelSub]
  · unfold PubSub.findSub PubSub.publish PubSub.returnIter
    dsimp only
    rw [find?_map_pred _ _ (hhp i), find?_map_pred _ _ (hgp i)]
    cases hfind : ps.subs.find? (fun s => s.subId = i) with
    | none => simp
    | some s0 =>
      have hs0 := List.find?_some hfind
      simp only [decide_eq_true_eq] at hs0
      simp only [Option.map_some']
      rw [if_pos hs0]
      simp [PubSub.handleEvent, PubSub.cancelSub]
  · unfold PubSub.findSub PubSub.publish PubSub.returnIter
    dsimp only
    rw [find?_map_pred _ _ (hhp j), find?_map_pred _ _ (hgp j),
      find?_map_pred _ _ (hhp j)]
    cases hfind : ps.subs.find? (fun s => s.subId = j) with
    | none => simp
    | some s0 =>
      have hs0 := List.find?_some hfind
      simp only [decide_eq_true_eq] at hs0
      simp only [Option.map_some']
      rw [if_neg (by rw [hs0]; exact hij)]
  · intro s hsj hreg hev
    unfold PubSub.findSub at hsj
    have hs0 := List.find?_some hsj
    simp only [decide_eq_true_eq] at hs0
    constructor
    · unfold PubSub.findSub PubSub.publish PubSub.returnIter
      dsimp only
      rw [find?_map_pred _ _ (hhp j), find?_map_pred _ _ (hgp j), hsj]
      simp only [Option.map_some']
      rw [if_neg (by rw [hs0]; exact hij)]
    · unfold PubSub.handleEvent
      rw [hreg, hev]
      simp only [decide_eq_true_eq, eq_self_iff_true, Bool.true_and, if_true]
      by_cases hp : s.pendingPulls > 0
      · rw [if_pos hp]
        left
        rfl
      · rw [if_neg hp]
        right
        rfl

theorem C9_witness :
    ¬ (1 : Nat) = 0 ∧
    (PubSub.returnIter (PubSub.returnIter samplePubSub 0) 0 =
      PubSub.returnIter samplePubSub 0 ∧
    (∀ s, PubSub.findSub (PubSub.returnIter samplePubSub 0) 0 = some s →
      s.done = true ∧ s.registered = false ∧ s.pushQueue = [] ∧
      s.pendingPulls = 0) ∧
    PubSub.findSub
      (PubSub.publish (PubSub.returnIter samplePubSub 0) "TICKET_UPDATED" 7)
      0 = PubSub.findSub (PubSub.returnIter samplePubSub 0) 0 ∧
    PubSub.findSub
      (PubSub.publish (PubSub.returnIter samplePubSub 0) "TICKET_UPDATED" 7)
      1 = PubSub.findSub (PubSub.publish samplePubSub "TICKET_UPDATED" 7) 1 ∧
    (∀ s, PubSub.findSub samplePubSub 1 = some s → s.registered = true →
      s.event = "TICKET_UPDATED" →
      PubSub.findSub
        (PubSub.publish (PubSub.returnIter samplePubSub 0)
          "TICKET_UPDATED" 7) 1 =
        some (PubSub.handleEvent "TICKET_UPDATED" 7 s) ∧
      ((PubSub.handleEvent "TICKET_UPDATED" 7 s).received =
        s.received ++ [7] ∨
       (PubSub.handleEvent "TICKET_UPDATED" 7 s).pushQueue =
        s.pushQueue ++ [7]))) :=
  ⟨by decide,
    C9_cancel_idempotent_and_isolated samplePubSub 0 1 "TICKET_UPDATED" 7
      (by decide)⟩
